import Mathlib

/-!
Shallow embedding of the WaiterMan POS front-end cart, billing and
order-status logic, translated from the repository's source:

* `src/frontend/src/pages/POSScreen.jsx` and its variants
  `src/unnamed/part_002` / `src/unnamed/part_003` (admin POS screen:
  `addToCart`, `updateQuantity`, `removeFromCart`, `saveNote`,
  `calculateTotals`, `resetOrder`, `handlePlaceOrder`, discount input
  clamping);
* `src/frontend/src/pages/MenuPage.jsx` (customer self-order cart:
  `addToCart`, `updateQuantity`, `removeFromCart`);
* `src/frontend/src/pages/OrdersPage.jsx` (`statusFlow`, the `nextStatus`
  computation and the advance-button guard).

JavaScript numbers are modelled as `ℚ` for monetary values and `ℤ` for
quantities and deltas; identifiers and names are `String` (JS `===` on
strings is `==`).  The source's defensive accesses (`item.pricing?.…`,
`item.tax || 0`) are embedded for menu items whose fields are present, as
the data model guarantees; the JS-falsy fallback
`item.pricing?.delivery || item.price` is kept (`0` is falsy).
-/

namespace Waiterman

/-- Per-channel pricing of a menu item (`item.pricing` in the source). -/
structure Pricing where
  dine_in : ℚ
  takeaway : ℚ
  delivery : ℚ
  deriving Repr, DecidableEq

/-- A menu item as the POS screens consume it: identity, name, per-channel
pricing, legacy single `price`, and a flat per-unit tax amount. -/
structure MenuItem where
  id : String
  name : String
  pricing : Pricing
  price : ℚ
  tax : ℚ
  deriving Repr, DecidableEq

/-- The order channel selected on the POS screen (`orderType`). -/
inductive OrderType where
  | dine_in
  | takeaway
  | delivery
  deriving Repr, DecidableEq

/-- One cart line of the admin POS screen (`src/unnamed/part_003`,
`addToCart`): item identity, captured name, quantity, captured unit
price, captured per-unit tax, free-text note. -/
structure CartLine where
  item_id : String
  item_name : String
  quantity : ℤ
  price : ℚ
  tax : ℚ
  notes : String
  deriving Repr, DecidableEq

/-- The channel-appropriate unit price captured by `addToCart`
(POSScreen.jsx lines 74–76): the dine_in and takeaway channels read
`item.pricing.dine_in` and `item.pricing.takeaway`; the remaining branch
is `item.pricing?.delivery || item.price`, whose `||` fallback fires when
`pricing.delivery` is JS-falsy, i.e. `0`. -/
def channelPrice (ot : OrderType) (item : MenuItem) : ℚ :=
  match ot with
  | .dine_in => item.pricing.dine_in
  | .takeaway => item.pricing.takeaway
  | .delivery => if item.pricing.delivery = 0 then item.price else item.pricing.delivery

/-- Admin POS `addToCart` (POSScreen.jsx lines 73–93, part_003 lines
95–116): if a line with this `item_id` exists, bump its quantity by 1,
otherwise append a fresh line with quantity 1 and empty note. -/
def addToCart (ot : OrderType) (cart : List CartLine) (item : MenuItem) : List CartLine :=
  if cart.any (fun c => c.item_id == item.id) then
    cart.map (fun c =>
      if c.item_id == item.id then { c with quantity := c.quantity + 1 } else c)
  else
    cart ++ [{ item_id := item.id, item_name := item.name, quantity := 1,
               price := channelPrice ot item, tax := item.tax, notes := "" }]

/-- Admin POS `updateQuantity` (POSScreen.jsx lines 95–99):
`quantity := Math.max(1, quantity + delta)` on the matching line. -/
def updateQuantity (cart : List CartLine) (itemId : String) (delta : ℤ) : List CartLine :=
  cart.map (fun c =>
    if c.item_id == itemId then { c with quantity := max 1 (c.quantity + delta) } else c)

/-- Admin POS `removeFromCart` (POSScreen.jsx lines 101–103):
`cart.filter((c) => c.item_id !== itemId)`. -/
def removeFromCart (cart : List CartLine) (itemId : String) : List CartLine :=
  cart.filter (fun c => c.item_id != itemId)

/-- Admin POS `saveNote` (part_003 lines 134–141): overwrite the note of
the matching line. -/
def saveNote (cart : List CartLine) (itemId : String) (note : String) : List CartLine :=
  cart.map (fun c => if c.item_id == itemId then { c with notes := note } else c)

/-- Discount kind on the POS screen (`discountType` in part_003). -/
inductive DiscountType where
  | percentage
  | fixed
  deriving Repr, DecidableEq

/-- Result record of `calculateTotals`. -/
structure Totals where
  subtotal : ℚ
  tax : ℚ
  discountAmt : ℚ
  total : ℚ
  deriving Repr, DecidableEq

/-- `calculateTotals` (part_003 lines 143–149; POSScreen.jsx lines
105–111 is the `percentage`-only special case):
subtotal and tax are `reduce` sums over the cart, the discount amount is
`subtotal * discount / 100` for a percentage discount and the entered
`discountAmount` for a fixed one, and
`total = subtotal + tax - discountAmt`. -/
def calculateTotals (cart : List CartLine) (discountType : DiscountType)
    (discount : ℚ) (discountAmount : ℚ) : Totals :=
  let subtotal := cart.foldl (fun sum item => sum + item.price * (item.quantity : ℚ)) 0
  let tax := cart.foldl (fun sum item => sum + item.tax * (item.quantity : ℚ)) 0
  let discountAmt :=
    match discountType with
    | .percentage => subtotal * discount / 100
    | .fixed => discountAmount
  { subtotal := subtotal, tax := tax, discountAmt := discountAmt,
    total := subtotal + tax - discountAmt }

/-- A one-line example cart with subtotal 100.00 and tax 8.00. -/
def exampleCart : List CartLine :=
  [{ item_id := "A", item_name := "Item A", quantity := 1,
     price := 100, tax := 8, notes := "" }]

lemma foldl_add_eq_sum_map (f : CartLine → ℚ) (l : List CartLine) (init : ℚ) :
    l.foldl (fun sum item => sum + f item) init = init + (l.map f).sum := by
  induction l generalizing init with
  | nil => simp
  | cons c l ih => simp [List.foldl_cons, ih, add_assoc]

/-- **C1.** For every cart and discount specification, `calculateTotals`
returns subtotal `Σ price·quantity`, tax `Σ tax·quantity`, discount
amount `subtotal·pct/100` (percentage) or the fixed amount directly
(fixed), and `total = subtotal + tax - discountAmt` with no lower floor;
on a cart with subtotal 100.00 and tax 8.00, a 10 % discount yields
discount 10.00 and total 98.00, and a fixed 15.00 discount yields total
93.00. -/
theorem calculateTotals_spec (cart : List CartLine) (dt : DiscountType)
    (discount discountAmount : ℚ) :
    (calculateTotals cart dt discount discountAmount).subtotal
        = (cart.map (fun c => c.price * (c.quantity : ℚ))).sum
    ∧ (calculateTotals cart dt discount discountAmount).tax
        = (cart.map (fun c => c.tax * (c.quantity : ℚ))).sum
    ∧ (calculateTotals cart .percentage discount discountAmount).discountAmt
        = (calculateTotals cart dt discount discountAmount).subtotal * discount / 100
    ∧ (calculateTotals cart .fixed discount discountAmount).discountAmt
        = discountAmount
    ∧ (calculateTotals cart dt discount discountAmount).total
        = (calculateTotals cart dt discount discountAmount).subtotal
          + (calculateTotals cart dt discount discountAmount).tax
          - (calculateTotals cart dt discount discountAmount).discountAmt
    ∧ calculateTotals exampleCart .percentage 10 0
        = { subtotal := 100, tax := 8, discountAmt := 10, total := 98 }
    ∧ calculateTotals exampleCart .fixed 0 15
        = { subtotal := 100, tax := 8, discountAmt := 15, total := 93 } := by
  refine ⟨?_, ?_, ?_, ?_, ?_, ?_, ?_⟩
  · simp [calculateTotals, foldl_add_eq_sum_map]
  · simp [calculateTotals, foldl_add_eq_sum_map]
  · simp [calculateTotals]
  · simp [calculateTotals]
  · rfl
  · norm_num [calculateTotals, exampleCart]
  · norm_num [calculateTotals, exampleCart]

/-- One cart line of the customer self-order screen
(`MenuPage.jsx`, `addToCart` lines 436–455): it carries no note field. -/
structure CustomerLine where
  item_id : String
  item_name : String
  quantity : ℤ
  price : ℚ
  tax : ℚ
  deriving Repr, DecidableEq

/-- Customer `addToCart` (MenuPage.jsx lines 436–455): same find/bump
logic as the admin screen, but the captured price is the flat
`item.price` and the tax `item.tax` (no channel pricing, no note). -/
def customerAddToCart (cart : List CustomerLine) (item : MenuItem) : List CustomerLine :=
  if cart.any (fun c => c.item_id == item.id) then
    cart.map (fun c =>
      if c.item_id == item.id then { c with quantity := c.quantity + 1 } else c)
  else
    cart ++ [{ item_id := item.id, item_name := item.name, quantity := 1,
               price := item.price, tax := item.tax }]

/-- Customer `updateQuantity` (MenuPage.jsx lines 457–463): add `delta`
to the matching line's quantity, then keep only lines with
`quantity > 0`. -/
def customerUpdateQuantity (cart : List CustomerLine) (itemId : String) (delta : ℤ) :
    List CustomerLine :=
  (cart.map (fun c =>
      if c.item_id == itemId then { c with quantity := c.quantity + delta } else c)).filter
    (fun c => decide (0 < c.quantity))

/-- Modelled from the spec's words for comparison with
`customerUpdateQuantity` (refinement check for the claim "sets the
quantity to `max(0, quantity + delta)` with automatic line removal at
zero"): set the matching line's quantity to `max 0 (quantity + delta)`,
then drop lines whose quantity is zero. -/
def customerUpdateQuantitySpec (cart : List CustomerLine) (itemId : String) (delta : ℤ) :
    List CustomerLine :=
  (cart.map (fun c =>
      if c.item_id == itemId then { c with quantity := max 0 (c.quantity + delta) } else c)).filter
    (fun c => c.quantity != 0)

/-- Customer `removeFromCart` (MenuPage.jsx lines 465–467). -/
def customerRemoveFromCart (cart : List CustomerLine) (itemId : String) : List CustomerLine :=
  cart.filter (fun c => c.item_id != itemId)

/-- **C2.** Admin POS `addToCart`: when some line already references the
item, the cart is updated pointwise — the line(s) with that `item_id` get
quantity + 1, every other line is untouched, and no line is added or
removed; when no line references it, exactly one new line is appended
with quantity 1, empty note, the channel-appropriate unit price and the
item's flat tax; adding the same item twice to an empty cart yields the
single line with quantity 2, whose line total is price × 2. -/
theorem addToCart_spec (ot : OrderType) (cart : List CartLine) (item : MenuItem) :
    ((cart.any fun c => c.item_id == item.id) = true →
      ∀ i : ℕ, (addToCart ot cart item).get? i =
        (cart.get? i).map (fun c =>
          if c.item_id == item.id then { c with quantity := c.quantity + 1 } else c))
    ∧ ((cart.any fun c => c.item_id == item.id) = false →
      addToCart ot cart item =
        cart ++ [{ item_id := item.id, item_name := item.name, quantity := 1,
                   price := channelPrice ot item, tax := item.tax, notes := "" }])
    ∧ addToCart ot (addToCart ot [] item) item =
        [{ item_id := item.id, item_name := item.name, quantity := 2,
           price := channelPrice ot item, tax := item.tax, notes := "" }]
    ∧ (calculateTotals (addToCart ot (addToCart ot [] item) item)
          .percentage 0 0).subtotal = channelPrice ot item * 2 := by
  refine ⟨?_, ?_, ?_, ?_⟩
  · intro h i
    simp [addToCart, h]
  · intro h
    simp [addToCart, h]
  · simp [addToCart]
  · simp [addToCart, calculateTotals]

/-- Witness for `addToCart_spec`: both membership hypotheses are
exercised at concrete carts. -/
theorem addToCart_spec_witness :
    (addToCart .dine_in
        [{ item_id := "A", item_name := "Item A", quantity := 1,
           price := 10, tax := 1, notes := "" }]
        { id := "A", name := "Item A",
          pricing := { dine_in := 10, takeaway := 11, delivery := 12 },
          price := 9, tax := 1 }).get? 0 =
      some { item_id := "A", item_name := "Item A", quantity := 2,
             price := 10, tax := 1, notes := "" }
    ∧ addToCart .dine_in []
        { id := "A", name := "Item A",
          pricing := { dine_in := 10, takeaway := 11, delivery := 12 },
          price := 9, tax := 1 } =
      [{ item_id := "A", item_name := "Item A", quantity := 1,
         price := 10, tax := 1, notes := "" }] := by
  constructor
  · have h := (addToCart_spec .dine_in
      [{ item_id := "A", item_name := "Item A", quantity := 1,
         price := 10, tax := 1, notes := "" }]
      { id := "A", name := "Item A",
        pricing := { dine_in := 10, takeaway := 11, delivery := 12 },
        price := 9, tax := 1 }).1 (by decide) 0
    rw [h]; rfl
  · have h := (addToCart_spec .dine_in []
      { id := "A", name := "Item A",
        pricing := { dine_in := 10, takeaway := 11, delivery := 12 },
        price := 9, tax := 1 }).2.1 (by decide)
    rw [h]; rfl

/-- **C3.** Admin `updateQuantity` sets the matching line's quantity to
`max 1 (quantity + delta)` pointwise (every other line untouched, no line
added or removed), and on a cart whose quantities are all ≥ 1 it never
produces a quantity below 1; the customer `updateQuantity` coincides,
on carts whose quantities are all ≥ 1, with the operation that sets the
matching quantity to `max 0 (quantity + delta)` and drops lines whose
quantity reached zero, and every line it returns has quantity > 0. -/
theorem updateQuantity_spec (cart : List CartLine) (itemId : String) (delta : ℤ) :
    (∀ i : ℕ, (updateQuantity cart itemId delta).get? i =
      (cart.get? i).map (fun c =>
        if c.item_id == itemId then { c with quantity := max 1 (c.quantity + delta) } else c))
    ∧ ((∀ c ∈ cart, 1 ≤ c.quantity) → ∀ c ∈ updateQuantity cart itemId delta, 1 ≤ c.quantity)
    ∧ (∀ ccart : List CustomerLine, (∀ c ∈ ccart, 1 ≤ c.quantity) →
        customerUpdateQuantity ccart itemId delta = customerUpdateQuantitySpec ccart itemId delta)
    ∧ (∀ ccart : List CustomerLine, ∀ c ∈ customerUpdateQuantity ccart itemId delta,
        0 < c.quantity) := by
  refine ⟨?_, ?_, ?_, ?_⟩
  · intro i
    simp [updateQuantity]
  · intro h c hc
    simp only [updateQuantity, List.mem_map] at hc
    obtain ⟨c₀, hc₀, rfl⟩ := hc
    by_cases hid : (c₀.item_id == itemId) = true
    · simp only [hid, if_true]
      exact le_max_left _ _
    · simp only [hid, if_false, Bool.false_eq_true]
      exact h c₀ hc₀
  · intro ccart h
    induction ccart with
    | nil => rfl
    | cons c l ih =>
      have hc : (1 : ℤ) ≤ c.quantity := h c (List.mem_cons_self _ _)
      have ihl := ih (fun x hx => h x (List.mem_cons_of_mem _ hx))
      simp only [customerUpdateQuantity, customerUpdateQuantitySpec, List.map_cons,
        List.filter_cons] at ihl ⊢
      by_cases hid : (c.item_id == itemId) = true
      · by_cases hq : (0 : ℤ) < c.quantity + delta
        · have hmax : max 0 (c.quantity + delta) = c.quantity + delta := by omega
          have hne : c.quantity + delta ≠ 0 := by omega
          simp [hid, hq, hmax, hne]
          simpa using ihl
        · have hmax : max 0 (c.quantity + delta) = 0 := by omega
          simp [hid, hq, hmax]
          simpa using ihl
      · have hq0 : (0 : ℤ) < c.quantity := by omega
        have hne : c.quantity ≠ 0 := by omega
        simp [hid, hq0, hne]
        simpa using ihl
  · intro ccart c hc
    simp only [customerUpdateQuantity, List.mem_filter] at hc
    exact of_decide_eq_true hc.2

/-- Witness for `updateQuantity_spec`: the quantity-1 line decremented by
1 stays at quantity 1 in the admin cart, and the customer operation
agrees with its spec description on a concrete one-line cart. -/
theorem updateQuantity_spec_witness :
    (∀ c ∈ updateQuantity
        [{ item_id := "A", item_name := "Item A", quantity := 1,
           price := 10, tax := 1, notes := "" }] "A" (-1), 1 ≤ c.quantity)
    ∧ customerUpdateQuantity
        [{ item_id := "A", item_name := "Item A", quantity := 1, price := 10, tax := 1 }]
        "A" (-1) =
      customerUpdateQuantitySpec
        [{ item_id := "A", item_name := "Item A", quantity := 1, price := 10, tax := 1 }]
        "A" (-1) := by
  constructor
  · exact (updateQuantity_spec
      [{ item_id := "A", item_name := "Item A", quantity := 1,
         price := 10, tax := 1, notes := "" }] "A" (-1)).2.1
      (by intro c hc; simp at hc; simp [hc])
  · exact (updateQuantity_spec [] "A" (-1)).2.2.1
      [{ item_id := "A", item_name := "Item A", quantity := 1, price := 10, tax := 1 }]
      (by intro c hc; simp at hc; simp [hc])

/-- The fixed order-status sequence (OrdersPage.jsx line 67). -/
def statusFlow : List String := ["pending", "preparing", "ready", "served", "completed"]

/-- JS `Array.prototype.indexOf`: index of the first occurrence, or −1
when the element is absent. -/
def jsIndexOf (l : List String) (s : String) : ℤ :=
  match l.findIdx? (fun x => x == s) with
  | some i => (i : ℤ)
  | none => -1

/-- JS array subscript: `l[i]` is `undefined` for a negative or
out-of-range index. -/
def jsGetElem (l : List String) (i : ℤ) : Option String :=
  if i < 0 then none else l.get? i.toNat

/-- `nextStatus` as computed in OrdersPage.jsx lines 79–80:
`statusFlow[statusFlow.indexOf(current) + 1]`. -/
def nextStatus (current : String) : Option String :=
  jsGetElem statusFlow (jsIndexOf statusFlow current + 1)

/-- The advance action offered on an order card (OrdersPage.jsx lines
116–124): the single button is rendered only when `nextStatus` is truthy
and the status is neither `completed` nor `cancelled`, and it requests
exactly the transition to `nextStatus`. -/
def advanceAction (status : String) : Option String :=
  match nextStatus status with
  | none => none
  | some ns =>
    if status == "completed" || status == "cancelled" then none else some ns

/-- The order statuses the backend can deliver: the fixed sequence plus
the terminal side-state `cancelled`. -/
def validStatuses : List String :=
  ["pending", "preparing", "ready", "served", "completed", "cancelled"]

/-- **C4, counterexample.** The claim says `nextStatus` returns none for
`cancelled`; in the code the indexOf of `cancelled` in `statusFlow` is
−1, so `statusFlow[-1 + 1]` is `statusFlow[0]`, i.e. `pending`. -/
theorem nextStatus_cancelled_not_none : nextStatus "cancelled" = some "pending" := by
  decide

/-- **C4, amended.** `nextStatus` returns the state immediately following
the current one in the fixed sequence and none for `completed`; for
`cancelled` (which is not in `statusFlow`) it evaluates to `pending`
rather than none, the advance action being suppressed for `cancelled`
only by the separate UI guard. -/
theorem nextStatus_spec :
    nextStatus "pending" = some "preparing"
    ∧ nextStatus "preparing" = some "ready"
    ∧ nextStatus "ready" = some "served"
    ∧ nextStatus "served" = some "completed"
    ∧ nextStatus "completed" = none
    ∧ nextStatus "cancelled" = some "pending" := by
  decide

/-- **C5.** For every status the backend can deliver, the admin order
list offers at most one action (an `Option`-valued target): none at all
for `completed` and `cancelled`, and otherwise exactly the advance to the
state whose index in the fixed sequence is the current index plus one —
so no backward and no skipping transition is ever offered. -/
theorem advanceAction_spec :
    advanceAction "completed" = none
    ∧ advanceAction "cancelled" = none
    ∧ (validStatuses.all fun s =>
        match advanceAction s with
        | none => s == "completed" || s == "cancelled"
        | some t => jsIndexOf statusFlow t == jsIndexOf statusFlow s + 1) = true := by
  refine ⟨by decide, by decide, by decide⟩

/-- Discount-percentage input handler (POSScreen.jsx line 377, part_003
line 571): `setDiscount(Math.max(0, Math.min(100, Number(value))))`. -/
def clampPercentInput (x : ℚ) : ℚ := max 0 (min 100 x)

/-- Fixed-discount input handler (part_003 line 581):
`setDiscountAmount(Math.max(0, Number(value)))`. -/
def clampFixedInput (x : ℚ) : ℚ := max 0 x

/-- Initial value of the percentage-discount state, `useState(0)`. -/
def initialDiscount : ℚ := 0

/-- Initial value of the fixed-discount state, `useState(0)`. -/
def initialDiscountAmount : ℚ := 0

/-- **C6.** Every stored percentage discount is clamped into `[0, 100]`,
every stored fixed discount amount is clamped to be ≥ 0, and with the
absent/initial discount (both states 0) the computed discount amount is 0
for either discount kind, on every cart. -/
theorem discount_clamp_spec (x : ℚ) (cart : List CartLine) :
    0 ≤ clampPercentInput x
    ∧ clampPercentInput x ≤ 100
    ∧ 0 ≤ clampFixedInput x
    ∧ (calculateTotals cart .percentage initialDiscount initialDiscountAmount).discountAmt = 0
    ∧ (calculateTotals cart .fixed initialDiscount initialDiscountAmount).discountAmt = 0 := by
  refine ⟨le_max_left _ _, ?_, le_max_left _ _, ?_, ?_⟩
  · simp [clampPercentInput]
  · simp [calculateTotals, initialDiscount]
  · simp [calculateTotals, initialDiscountAmount]

/-- **C7.** `removeFromCart` keeps a subsequence of the cart (so every
surviving line — quantity, price, tax, note — is unchanged and in the
same relative order), keeps every line whose identity differs from the
removed one, keeps no line carrying the removed identity, and, when the
cart's identities are pairwise distinct and the identity is present,
removes exactly one line. -/
theorem removeFromCart_spec (cart : List CartLine) (itemId : String) :
    (removeFromCart cart itemId).Sublist cart
    ∧ (∀ c ∈ cart, (c.item_id == itemId) = false → c ∈ removeFromCart cart itemId)
    ∧ (∀ c ∈ removeFromCart cart itemId, (c.item_id == itemId) = false)
    ∧ ((cart.map CartLine.item_id).Nodup → ∀ c ∈ cart, c.item_id = itemId →
        (removeFromCart cart itemId).length + 1 = cart.length) := by
  refine ⟨List.filter_sublist _, ?_, ?_, ?_⟩
  · intro c hc h
    exact List.mem_filter.mpr ⟨hc, by simp_all [bne]⟩
  · intro c hc
    have := (List.mem_filter.mp hc).2
    simpa [bne] using this
  · intro hnd c hc hcid
    induction cart with
    | nil => cases hc
    | cons a l ih =>
      simp only [List.map_cons, List.nodup_cons, List.mem_map] at hnd
      rcases List.mem_cons.mp hc with rfl | hcl
      · have hrest : removeFromCart (c :: l) itemId = l := by
          simp only [removeFromCart, List.filter_cons]
          have ha : (c.item_id != itemId) = false := by simp [bne, hcid]
          rw [ha]
          simp only [Bool.false_eq_true, if_false]
          exact List.filter_eq_self.mpr (fun x hx => by
            have : x.item_id ≠ itemId := fun hxid => hnd.1 ⟨x, hx, hxid.trans hcid.symm⟩
            simp [bne, this])
        rw [hrest]
        simp
      · have haid : a.item_id ≠ itemId := by
          intro haid
          exact hnd.1 ⟨c, hcl, hcid.trans haid.symm⟩
        have hkeep : removeFromCart (a :: l) itemId = a :: removeFromCart l itemId := by
          simp only [removeFromCart, List.filter_cons]
          have : (a.item_id != itemId) = true := by simp [bne, haid]
          rw [this]
          simp
        rw [hkeep]
        simp only [List.length_cons]
        have := ih hnd.2 hcl
        omega

/-- Witness for `removeFromCart_spec`: removing item "A" from a concrete
two-line cart deletes exactly that line and keeps the other. -/
theorem removeFromCart_spec_witness :
    ({ item_id := "B", item_name := "Item B", quantity := 2,
       price := 5, tax := 0, notes := "" } : CartLine) ∈
      removeFromCart
        [{ item_id := "A", item_name := "Item A", quantity := 1,
           price := 10, tax := 1, notes := "" },
         { item_id := "B", item_name := "Item B", quantity := 2,
           price := 5, tax := 0, notes := "" }] "A"
    ∧ (removeFromCart
        [{ item_id := "A", item_name := "Item A", quantity := 1,
           price := 10, tax := 1, notes := "" },
         { item_id := "B", item_name := "Item B", quantity := 2,
           price := 5, tax := 0, notes := "" }] "A").length + 1 = 2 := by
  constructor
  · exact (removeFromCart_spec
      [{ item_id := "A", item_name := "Item A", quantity := 1,
         price := 10, tax := 1, notes := "" },
       { item_id := "B", item_name := "Item B", quantity := 2,
         price := 5, tax := 0, notes := "" }] "A").2.1 _ (by simp) (by decide)
  · exact (removeFromCart_spec
      [{ item_id := "A", item_name := "Item A", quantity := 1,
         price := 10, tax := 1, notes := "" },
       { item_id := "B", item_name := "Item B", quantity := 2,
         price := 5, tax := 0, notes := "" }] "A").2.2.2 (by decide)
      { item_id := "A", item_name := "Item A", quantity := 1,
        price := 10, tax := 1, notes := "" } (by simp) (by decide)

/-- The POS screen state read and written by `resetOrder` and
`handlePlaceOrder` (part_003 state hooks; `orderTime` and `elapsedTime`
are abstract timestamps). -/
structure POSState where
  cart : List CartLine
  customerName : String
  customerPhone : String
  selectedTable : Option String
  discount : ℚ
  discountAmount : ℚ
  discountType : DiscountType
  orderType : OrderType
  orderTime : ℤ
  elapsedTime : ℤ
  deriving Repr, DecidableEq

/-- `resetOrder` (part_002 lines 165–172, part_003 lines 185–194): empty
the cart and reset customer name/phone, selected table, the entered
discount values, and the order start time (`setOrderTime(new Date())`,
modelled by the `now` argument). -/
def resetOrder (s : POSState) (now : ℤ) : POSState :=
  { s with cart := [], customerName := "", customerPhone := "",
           selectedTable := none, discount := 0, discountAmount := 0,
           orderTime := now, elapsedTime := 0 }

/-- **C8.** `resetOrder` empties the line list and resets customer name,
customer phone, the selected table, both entered discount values and the
order start time; consequently subtotal, tax and discount amount of the
reset state are all zero (for either discount kind). -/
theorem resetOrder_spec (s : POSState) (now : ℤ) :
    (resetOrder s now).cart = []
    ∧ (resetOrder s now).customerName = ""
    ∧ (resetOrder s now).customerPhone = ""
    ∧ (resetOrder s now).selectedTable = none
    ∧ (resetOrder s now).discount = 0
    ∧ (resetOrder s now).discountAmount = 0
    ∧ (resetOrder s now).orderTime = now
    ∧ calculateTotals (resetOrder s now).cart (resetOrder s now).discountType
        (resetOrder s now).discount (resetOrder s now).discountAmount
      = { subtotal := 0, tax := 0, discountAmt := 0, total := 0 } := by
  refine ⟨rfl, rfl, rfl, rfl, rfl, rfl, rfl, ?_⟩
  cases hdt : s.discountType <;> simp [resetOrder, calculateTotals, hdt]

/-- Outcome of one `handlePlaceOrder` call. -/
inductive PlaceOrderOutcome where
  | emptyCart
  | noTable
  | backendError
  | success
  deriving Repr, DecidableEq

/-- `handlePlaceOrder` (POSScreen.jsx lines 113–144, part_003 lines
156–183) as a state transformer: return early with a toast on an empty
cart or a dine-in order without a table, then POST the order; on a
backend rejection only a toast is shown, on success the state is reset. -/
def handlePlaceOrder (s : POSState) (backendOk : Bool) (now : ℤ) :
    POSState × PlaceOrderOutcome :=
  if s.cart.length = 0 then (s, .emptyCart)
  else if s.orderType == .dine_in && s.selectedTable.isNone then (s, .noTable)
  else if backendOk then (resetOrder s now, .success)
  else (s, .backendError)

/-- **C9.** Order placement is atomic for the UI state: whenever the
attempt does not succeed — empty cart, dine-in without a table, or a
backend rejection — the whole POS state (cart lines, customer name and
phone, discount, selected table) is left exactly as before; the state is
cleared (via `resetOrder`) precisely on success, which happens exactly
when the cart is non-empty, the order is not a table-less dine-in, and
the backend accepts. -/
theorem handlePlaceOrder_atomic (s : POSState) (ok : Bool) (now : ℤ) :
    ((handlePlaceOrder s ok now).2 ≠ .success → (handlePlaceOrder s ok now).1 = s)
    ∧ ((handlePlaceOrder s ok now).2 = .success →
        (handlePlaceOrder s ok now).1 = resetOrder s now)
    ∧ ((handlePlaceOrder s ok now).2 = PlaceOrderOutcome.success ↔
        s.cart ≠ [] ∧ ¬(s.orderType = .dine_in ∧ s.selectedTable = none) ∧ ok = true) := by
  unfold handlePlaceOrder
  split_ifs with h1 h2 h3 <;>
    simp_all [List.length_eq_zero, Option.isNone_iff_eq_none]

/-- Witness for `handlePlaceOrder_atomic`: on a concrete dine-in state
with a selected table, a backend rejection leaves the state unchanged and
a backend acceptance resets it. -/
theorem handlePlaceOrder_atomic_witness :
    (handlePlaceOrder
        { cart := exampleCart, customerName := "Ada", customerPhone := "1",
          selectedTable := some "T1", discount := 10, discountAmount := 0,
          discountType := .percentage, orderType := .dine_in,
          orderTime := 0, elapsedTime := 3 } false 7).1
      = { cart := exampleCart, customerName := "Ada", customerPhone := "1",
          selectedTable := some "T1", discount := 10, discountAmount := 0,
          discountType := .percentage, orderType := .dine_in,
          orderTime := 0, elapsedTime := 3 }
    ∧ (handlePlaceOrder
        { cart := exampleCart, customerName := "Ada", customerPhone := "1",
          selectedTable := some "T1", discount := 10, discountAmount := 0,
          discountType := .percentage, orderType := .dine_in,
          orderTime := 0, elapsedTime := 3 } true 7).1
      = resetOrder
          { cart := exampleCart, customerName := "Ada", customerPhone := "1",
            selectedTable := some "T1", discount := 10, discountAmount := 0,
            discountType := .percentage, orderType := .dine_in,
            orderTime := 0, elapsedTime := 3 } 7 := by
  constructor
  · exact (handlePlaceOrder_atomic
      { cart := exampleCart, customerName := "Ada", customerPhone := "1",
        selectedTable := some "T1", discount := 10, discountAmount := 0,
        discountType := .percentage, orderType := .dine_in,
        orderTime := 0, elapsedTime := 3 } false 7).1
      (by simp [handlePlaceOrder, exampleCart])
  · exact (handlePlaceOrder_atomic
      { cart := exampleCart, customerName := "Ada", customerPhone := "1",
        selectedTable := some "T1", discount := 10, discountAmount := 0,
        discountType := .percentage, orderType := .dine_in,
        orderTime := 0, elapsedTime := 3 } true 7).2.1
      (by simp [handlePlaceOrder, exampleCart])

/-- Mapping a function that keeps `item_id` does not change the cart's
identity list. -/
lemma map_item_id_map (cart : List CartLine) (f : CartLine → CartLine)
    (hf : ∀ c, (f c).item_id = c.item_id) :
    (cart.map f).map CartLine.item_id = cart.map CartLine.item_id := by
  rw [List.map_map]
  exact List.map_congr_left (fun c _ => hf c)

/-- Same for customer lines. -/
lemma map_item_id_map_customer (cart : List CustomerLine) (f : CustomerLine → CustomerLine)
    (hf : ∀ c, (f c).item_id = c.item_id) :
    (cart.map f).map CustomerLine.item_id = cart.map CustomerLine.item_id := by
  rw [List.map_map]
  exact List.map_congr_left (fun c _ => hf c)

/-- The cart invariant of the admin POS screen: pairwise-distinct item
identities and all quantities at least 1. -/
def CartInv (cart : List CartLine) : Prop :=
  (cart.map CartLine.item_id).Nodup ∧ ∀ c ∈ cart, 1 ≤ c.quantity

lemma cartInv_addToCart {cart : List CartLine} (h : CartInv cart)
    (ot : OrderType) (item : MenuItem) : CartInv (addToCart ot cart item) := by
  obtain ⟨hnd, hq⟩ := h
  unfold addToCart
  by_cases hmem : (cart.any fun c => c.item_id == item.id) = true
  · rw [if_pos hmem]
    refine ⟨?_, ?_⟩
    · rw [map_item_id_map]
      · exact hnd
      · intro c
        by_cases hc : (c.item_id == item.id) = true <;> simp [hc]
    · intro c hc
      obtain ⟨c₀, hc₀, rfl⟩ := List.mem_map.mp hc
      have h1 := hq c₀ hc₀
      by_cases hc' : (c₀.item_id == item.id) = true <;> simp [hc'] <;> omega
  · rw [if_neg hmem]
    have hnotin : item.id ∉ cart.map CartLine.item_id := by
      intro hin
      obtain ⟨c, hc, hcid⟩ := List.mem_map.mp hin
      exact hmem (List.any_eq_true.mpr ⟨c, hc, by simp [hcid]⟩)
    refine ⟨?_, ?_⟩
    · rw [List.map_append]
      simp [List.nodup_append, hnd, hnotin]
    · intro c hc
      rcases List.mem_append.mp hc with h1 | h2
      · exact hq c h1
      · simp only [List.mem_singleton] at h2
        subst h2
        norm_num

lemma cartInv_updateQuantity {cart : List CartLine} (h : CartInv cart)
    (itemId : String) (delta : ℤ) : CartInv (updateQuantity cart itemId delta) := by
  obtain ⟨hnd, hq⟩ := h
  refine ⟨?_, ?_⟩
  · rw [updateQuantity, map_item_id_map]
    · exact hnd
    · intro c
      by_cases hc : (c.item_id == itemId) = true <;> simp [hc]
  · intro c hc
    obtain ⟨c₀, hc₀, rfl⟩ := List.mem_map.mp hc
    have h1 := hq c₀ hc₀
    by_cases hc' : (c₀.item_id == itemId) = true
    · simp [hc']
    · simp [hc']
      exact h1

lemma cartInv_removeFromCart {cart : List CartLine} (h : CartInv cart)
    (itemId : String) : CartInv (removeFromCart cart itemId) := by
  obtain ⟨hnd, hq⟩ := h
  refine ⟨?_, ?_⟩
  · exact hnd.sublist ((List.filter_sublist _).map CartLine.item_id)
  · intro c hc
    exact hq c (List.mem_of_mem_filter hc)

lemma cartInv_saveNote {cart : List CartLine} (h : CartInv cart)
    (itemId : String) (note : String) : CartInv (saveNote cart itemId note) := by
  obtain ⟨hnd, hq⟩ := h
  refine ⟨?_, ?_⟩
  · rw [saveNote, map_item_id_map]
    · exact hnd
    · intro c
      by_cases hc : (c.item_id == itemId) = true <;> simp [hc]
  · intro c hc
    obtain ⟨c₀, hc₀, rfl⟩ := List.mem_map.mp hc
    have h1 := hq c₀ hc₀
    by_cases hc' : (c₀.item_id == itemId) = true <;> simp [hc'] <;> exact h1

/-- One admin POS cart interaction. -/
inductive AdminOp where
  | add (item : MenuItem)
  | qty (itemId : String) (delta : ℤ)
  | remove (itemId : String)
  | note (itemId : String) (text : String)

/-- Apply one admin cart interaction. -/
def applyAdminOp (ot : OrderType) (cart : List CartLine) : AdminOp → List CartLine
  | .add item => addToCart ot cart item
  | .qty itemId delta => updateQuantity cart itemId delta
  | .remove itemId => removeFromCart cart itemId
  | .note itemId text => saveNote cart itemId text

/-- Run a sequence of admin cart interactions from the empty cart. -/
def runAdminOps (ot : OrderType) (ops : List AdminOp) : List CartLine :=
  ops.foldl (applyAdminOp ot) []

/-- One customer self-order cart interaction. -/
inductive CustomerOp where
  | add (item : MenuItem)
  | qty (itemId : String) (delta : ℤ)
  | remove (itemId : String)

/-- Apply one customer cart interaction. -/
def applyCustomerOp (cart : List CustomerLine) : CustomerOp → List CustomerLine
  | .add item => customerAddToCart cart item
  | .qty itemId delta => customerUpdateQuantity cart itemId delta
  | .remove itemId => customerRemoveFromCart cart itemId

/-- Run a sequence of customer cart interactions from the empty cart. -/
def runCustomerOps (ops : List CustomerOp) : List CustomerLine :=
  ops.foldl applyCustomerOp []

lemma customerNodup_add {cart : List CustomerLine}
    (hnd : (cart.map CustomerLine.item_id).Nodup) (item : MenuItem) :
    ((customerAddToCart cart item).map CustomerLine.item_id).Nodup := by
  unfold customerAddToCart
  by_cases hmem : (cart.any fun c => c.item_id == item.id) = true
  · rw [if_pos hmem, map_item_id_map_customer]
    · exact hnd
    · intro c
      by_cases hc : (c.item_id == item.id) = true <;> simp [hc]
  · rw [if_neg hmem]
    have hnotin : item.id ∉ cart.map CustomerLine.item_id := by
      intro hin
      obtain ⟨c, hc, hcid⟩ := List.mem_map.mp hin
      exact hmem (List.any_eq_true.mpr ⟨c, hc, by simp [hcid]⟩)
    rw [List.map_append]
    simp [List.nodup_append, hnd, hnotin]

lemma customerNodup_qty {cart : List CustomerLine}
    (hnd : (cart.map CustomerLine.item_id).Nodup) (itemId : String) (delta : ℤ) :
    ((customerUpdateQuantity cart itemId delta).map CustomerLine.item_id).Nodup := by
  have hmap : ((cart.map (fun c =>
      if c.item_id == itemId then { c with quantity := c.quantity + delta } else c)).map
        CustomerLine.item_id).Nodup := by
    rw [map_item_id_map_customer]
    · exact hnd
    · intro c
      by_cases hc : (c.item_id == itemId) = true <;> simp [hc]
  exact hmap.sublist ((List.filter_sublist _).map CustomerLine.item_id)

lemma customerNodup_remove {cart : List CustomerLine}
    (hnd : (cart.map CustomerLine.item_id).Nodup) (itemId : String) :
    ((customerRemoveFromCart cart itemId).map CustomerLine.item_id).Nodup :=
  hnd.sublist ((List.filter_sublist _).map CustomerLine.item_id)

/-- **C10.** In every cart state reachable from the empty cart by any
sequence of add / change-quantity / remove / set-note operations, the
lines carry pairwise-distinct item identities, and in the admin POS cart
every line's quantity is at least 1. -/
theorem cart_invariant (ot : OrderType) (ops : List AdminOp) (cops : List CustomerOp) :
    CartInv (runAdminOps ot ops)
    ∧ ((runCustomerOps cops).map CustomerLine.item_id).Nodup := by
  constructor
  · have key : ∀ cart, CartInv cart → CartInv (ops.foldl (applyAdminOp ot) cart) := by
      induction ops with
      | nil => exact fun cart h => h
      | cons op ops ih =>
        intro cart h
        refine ih _ ?_
        cases op with
        | add item => exact cartInv_addToCart h ot item
        | qty itemId delta => exact cartInv_updateQuantity h itemId delta
        | remove itemId => exact cartInv_removeFromCart h itemId
        | note itemId text => exact cartInv_saveNote h itemId text
    exact key [] ⟨List.nodup_nil, by simp⟩
  · have key : ∀ cart, (List.map CustomerLine.item_id cart).Nodup →
        ((cops.foldl applyCustomerOp cart).map CustomerLine.item_id).Nodup := by
      induction cops with
      | nil => exact fun cart h => h
      | cons op ops ih =>
        intro cart h
        refine ih _ ?_
        cases op with
        | add item => exact customerNodup_add h item
        | qty itemId delta => exact customerNodup_qty h itemId delta
        | remove itemId => exact customerNodup_remove h itemId
    exact key [] List.nodup_nil

end Waiterman
